import Mathlib

/-!
Verification of the resilient request-execution core of the ethereum-mcp-server
repository: numeric conversion (src/types/mod.rs, src/providers/ethereum.rs),
the nonce allocator (src/providers/nonce_manager.rs), the circuit breaker
(src/providers/circuit_breaker.rs), the retry-with-backoff executor and the
provider orchestration layer (src/providers/ethereum.rs).

Rust `rust_decimal::Decimal` values are modelled as exact rationals (`ℚ`)
together with the representability predicate `decRep` (a 96-bit mantissa and a
scale of at most 28 fractional digits).  Machine integers (`u64`) are modelled
as `Nat` with explicit `% 2^64` where overflow matters (release-build wrapping;
debug builds would panic instead).  Fallible Rust code returning
`anyhow::Result` is modelled with `Except String`.
-/

/-- A rational is representable as a `rust_decimal::Decimal` iff for some scale
`s ≤ 28` the scaled value `q * 10^s` is an integer (`10^s` is divisible by the
reduced denominator) whose absolute value fits the 96-bit mantissa. -/
def decRep (q : ℚ) : Bool :=
  (List.range 29).any fun s =>
    (10 ^ s % q.den == 0) && decide (q.num.natAbs * (10 ^ s / q.den) < 2 ^ 96)

/-- `TokenAmount` from src/types/mod.rs: a human-readable decimal value `raw`
together with the token's decimal-place count (`u8` in the source). -/
structure TokenAmount where
  raw : ℚ
  decimals : Nat
deriving DecidableEq

/-- The multiplier `10_u64.pow(decimals as u32)` computed by the source in
`u64` arithmetic: for `decimals ≥ 20` the power overflows and wraps modulo
`2^64` in release builds (debug builds panic). -/
def pow10u64 (d : Nat) : Nat := (10 ^ d) % 2 ^ 64

/-- `TokenAmount::to_raw_units` from src/types/mod.rs: `checked_mul` of the
value by the `u64`-computed power of ten; the `Overflow` error is modelled by
the fixed message prefix (the source formats the value and decimals into it).
For the power-of-ten multipliers reachable with `decimals ≤ 19`, `checked_mul`
succeeds exactly when the exact product is representable, and is then exact. -/
def TokenAmount.to_raw_units (a : TokenAmount) : Except String ℚ :=
  let r := a.raw * (pow10u64 a.decimals : ℚ)
  if decRep r then .ok r
  else .error "Overflow when converting to raw units"

/-- `TokenAmount::from_raw_units` from src/types/mod.rs: divide the raw value
by the `u64`-computed power of ten.  Exact rational division models
`rust_decimal` division, which is exact whenever the true quotient is
representable — the case in every use below. -/
def TokenAmount.from_raw_units (raw_value : ℚ) (decimals : Nat) : TokenAmount :=
  ⟨raw_value / (pow10u64 decimals : ℚ), decimals⟩

/-- `AlloyEthereumProvider::decimal_to_u256` from src/providers/ethereum.rs:
rejects negative or fractional inputs with one single fixed message, then
parses the truncated integer's digits as a `U256` (which fails above `2^256`,
unreachable from genuine `Decimal` values). -/
def decimal_to_u256 (value : ℚ) : Except String Nat :=
  if value < 0 ∨ value.den ≠ 1 then
    .error "Cannot convert non-positive or fractional Decimal to U256"
  else if value.num.natAbs < 2 ^ 256 then .ok value.num.natAbs
  else .error "Failed to convert Decimal to U256"

/-- `AlloyEthereumProvider::u256_to_decimal` from src/providers/ethereum.rs:
`Decimal::from_str` of the integer's digits, which succeeds exactly when the
integer fits the 96-bit mantissa. -/
def u256_to_decimal (value : Nat) : Except String ℚ :=
  if value < 2 ^ 96 then .ok (value : ℚ)
  else .error "Failed to convert U256 to Decimal"

/-- Representability certificate: one witnessing scale suffices. -/
lemma decRep_true_of (q : ℚ) (s : Nat) (hs : s < 29) (hd : 10 ^ s % q.den = 0)
    (hm : q.num.natAbs * (10 ^ s / q.den) < 2 ^ 96) : decRep q = true := by
  unfold decRep
  rw [List.any_eq_true]
  refine ⟨s, List.mem_range.mpr hs, ?_⟩
  rw [Bool.and_eq_true, beq_iff_eq, decide_eq_true_eq]
  exact ⟨hd, hm⟩

/-- An integer whose magnitude already exceeds the 96-bit mantissa is not
representable at any scale. -/
lemma decRep_false_of_large_int (q : ℚ) (hden : q.den = 1)
    (hnum : 2 ^ 96 ≤ q.num.natAbs) : decRep q = false := by
  unfold decRep
  rw [List.any_eq_false]
  intro s _
  rw [Bool.and_eq_true, beq_iff_eq, decide_eq_true_eq, hden]
  rintro ⟨-, hlt⟩
  have h1 : q.num.natAbs ≤ q.num.natAbs * (10 ^ s / 1) := by
    have : 0 < 10 ^ s / 1 := by
      simp [Nat.pos_pow_of_pos s]
    exact Nat.le_mul_of_pos_right _ this
  omega

/-- For `d ≤ 19` the `u64` power does not wrap. -/
lemma pow10u64_eq (d : Nat) (hd : d ≤ 19) : pow10u64 d = 10 ^ d := by
  unfold pow10u64
  apply Nat.mod_eq_of_lt
  calc 10 ^ d ≤ 10 ^ 19 := Nat.pow_le_pow_right (by norm_num) hd
    _ < 2 ^ 64 := by norm_num

lemma pow10u64_cast (d : Nat) (hd : d ≤ 19) :
    ((pow10u64 d : Nat) : ℚ) = (10 : ℚ) ^ d := by
  rw [pow10u64_eq d hd]
  push_cast
  ring

/-- Successful conversion to raw units, for non-wrapping decimal counts. -/
lemma to_raw_units_eval (v : ℚ) (d : Nat) (hd : d ≤ 19)
    (h : decRep (v * (10 : ℚ) ^ d) = true) :
    TokenAmount.to_raw_units ⟨v, d⟩ = .ok (v * (10 : ℚ) ^ d) := by
  unfold TokenAmount.to_raw_units
  rw [show (TokenAmount.mk v d).raw = v from rfl, show (TokenAmount.mk v d).decimals = d from rfl,
    pow10u64_cast d hd]
  simp [h]

/-- Overflowing conversion to raw units, for non-wrapping decimal counts. -/
lemma to_raw_units_overflow (v : ℚ) (d : Nat) (hd : d ≤ 19)
    (h : decRep (v * (10 : ℚ) ^ d) = false) :
    TokenAmount.to_raw_units ⟨v, d⟩ = .error "Overflow when converting to raw units" := by
  unfold TokenAmount.to_raw_units
  rw [show (TokenAmount.mk v d).raw = v from rfl, show (TokenAmount.mk v d).decimals = d from rfl,
    pow10u64_cast d hd]
  simp [h]

/-- C6: For every TokenAmount x with representable non-negative value and
decimals d in `{0, 6, 8, 18}`, converting to raw units and back is the
identity: `from_raw_units (to_raw_units x) d = x`. -/
theorem C6_round_trip (x : TokenAmount) (hnn : 0 ≤ x.raw) (hrep : decRep x.raw = true)
    (hdec : x.decimals = 0 ∨ x.decimals = 6 ∨ x.decimals = 8 ∨ x.decimals = 18)
    (r : ℚ) (h : x.to_raw_units = .ok r) :
    TokenAmount.from_raw_units r x.decimals = x := by
  have hd19 : x.decimals ≤ 19 := by rcases hdec with h' | h' | h' | h' <;> omega
  have hcast := pow10u64_cast x.decimals hd19
  have hr : r = x.raw * (10 : ℚ) ^ x.decimals := by
    unfold TokenAmount.to_raw_units at h
    rw [hcast] at h
    by_cases hc : decRep (x.raw * (10 : ℚ) ^ x.decimals) = true
    · simp only [hc, if_true, Except.ok.injEq] at h
      exact h.symm
    · simp only [hc] at h
      simp at h
  have hpow : ((10 : ℚ) ^ x.decimals) ≠ 0 := pow_ne_zero _ (by norm_num)
  unfold TokenAmount.from_raw_units
  rw [hcast, hr, mul_div_cancel_right₀ _ hpow]

/-- C6 witness: round trip at 1.5 tokens with 6 decimals. -/
theorem C6_round_trip_witness :
    TokenAmount.from_raw_units 1500000 6 = ⟨(3 : ℚ) / 2, 6⟩ := by
  have hrep32 : decRep ((3 : ℚ) / 2) = true := by
    apply decRep_true_of _ 1 (by norm_num) <;> norm_num
  have hrep : decRep ((3 : ℚ) / 2 * (10 : ℚ) ^ 6) = true := by
    apply decRep_true_of _ 0 (by norm_num) <;> norm_num
  have hto : TokenAmount.to_raw_units ⟨(3 : ℚ) / 2, 6⟩ = .ok ((3 : ℚ) / 2 * (10 : ℚ) ^ 6) :=
    to_raw_units_eval _ _ (by norm_num) hrep
  have h := C6_round_trip ⟨(3 : ℚ) / 2, 6⟩ (by norm_num) hrep32 (by norm_num)
    ((3 : ℚ) / 2 * (10 : ℚ) ^ 6) hto
  rw [show ((3 : ℚ) / 2 * (10 : ℚ) ^ 6) = 1500000 by norm_num] at h
  exact h

/-- C7 counterexample: at decimals = 20 the `u64` computation of `10^decimals`
wraps (release builds), so `to_raw_units` on the amount 1 silently returns the
wrapped multiplier `10^20 mod 2^64 = 7766279631452241920` — neither
`value * 10^decimals` nor an `Overflow` failure.  (Debug builds panic instead
of wrapping; either way the claim's never-wraps/never-panics guarantee fails
outside decimals ≤ 19.) -/
theorem C7_counterexample :
    TokenAmount.to_raw_units ⟨1, 20⟩ = .ok (7766279631452241920 : ℚ) ∧
      (7766279631452241920 : ℚ) ≠ (1 : ℚ) * (10 : ℚ) ^ 20 := by
  constructor
  · unfold TokenAmount.to_raw_units
    rw [show (TokenAmount.mk 1 20).raw = 1 from rfl,
      show (TokenAmount.mk 1 20).decimals = 20 from rfl,
      show pow10u64 20 = 7766279631452241920 by unfold pow10u64; norm_num]
    have hrep : decRep ((7766279631452241920 : ℚ)) = true := by
      apply decRep_true_of _ 0 (by norm_num) <;> norm_num
    rw [show (((7766279631452241920 : Nat) : ℚ)) = (7766279631452241920 : ℚ) by push_cast; ring]
    simp [hrep]
  · norm_num

/-- C7 (amended): for every TokenAmount whose decimals are at most 19 (so that
the `u64`-built multiplier `10^decimals` does not wrap), `to_raw_units` either
returns exactly `value * 10^decimals` or fails with the Overflow error — it
never silently wraps; in particular the maximal decimal value with
decimals = 18 fails with Overflow.  For decimals ≥ 20 the multiplier itself
overflows `u64` (wrap in release builds, panic in debug builds), as the
counterexample shows. -/
theorem C7_to_raw_units_checked (v : ℚ) (d : Nat) (hd : d ≤ 19) :
    (decRep (v * (10 : ℚ) ^ d) = true →
      TokenAmount.to_raw_units ⟨v, d⟩ = .ok (v * (10 : ℚ) ^ d)) ∧
    (decRep (v * (10 : ℚ) ^ d) = false →
      TokenAmount.to_raw_units ⟨v, d⟩ = .error "Overflow when converting to raw units") ∧
    TokenAmount.to_raw_units ⟨(2 ^ 96 - 1 : ℚ), 18⟩ =
      .error "Overflow when converting to raw units" := by
  refine ⟨fun h => to_raw_units_eval v d hd h, fun h => to_raw_units_overflow v d hd h, ?_⟩
  apply to_raw_units_overflow _ _ (by norm_num)
  apply decRep_false_of_large_int
  · norm_num
  · norm_num

/-- C7 witness: a representable conversion and the maximal-value overflow,
obtained from the theorem at concrete inputs. -/
theorem C7_to_raw_units_checked_witness :
    TokenAmount.to_raw_units ⟨2, 18⟩ = .ok (2000000000000000000 : ℚ) ∧
      TokenAmount.to_raw_units ⟨(2 ^ 96 - 1 : ℚ), 18⟩ =
        .error "Overflow when converting to raw units" := by
  have h := C7_to_raw_units_checked 2 18 (by norm_num)
  have hrep : decRep ((2 : ℚ) * (10 : ℚ) ^ 18) = true := by
    apply decRep_true_of _ 0 (by norm_num) <;> norm_num
  refine ⟨?_, h.2.2⟩
  have h1 := h.1 hrep
  rw [show ((2 : ℚ) * (10 : ℚ) ^ 18) = 2000000000000000000 by norm_num] at h1
  exact h1

/-- C8 counterexample: the source rejects `-100` and `1.5` with the very same
error value — one fixed message naming both cases — so the two failures do not
carry distinct reasons. -/
theorem C8_counterexample :
    decimal_to_u256 (-100) = decimal_to_u256 ((3 : ℚ) / 2) ∧
      decimal_to_u256 (-100) =
        .error "Cannot convert non-positive or fractional Decimal to U256" := by
  have h1 : decimal_to_u256 (-100) =
      .error "Cannot convert non-positive or fractional Decimal to U256" := by
    unfold decimal_to_u256
    rw [if_pos]
    left
    norm_num
  have h2 : decimal_to_u256 ((3 : ℚ) / 2) =
      .error "Cannot convert non-positive or fractional Decimal to U256" := by
    unfold decimal_to_u256
    rw [if_pos]
    right
    norm_num
  exact ⟨h1.trans h2.symm, h1⟩

/-- C8 (amended): `decimal_to_u256` fails for every negative input and for
every input with a non-zero fractional part, never truncating silently, but
both cases fail with the same single error message
"Cannot convert non-positive or fractional Decimal to U256" (not with distinct
reasons); every non-negative integral input below `2^256` — which includes all
values representable as a Decimal — converts exactly. -/
theorem C8_decimal_to_u256_rejects (v : ℚ) :
    (v < 0 →
      decimal_to_u256 v =
        .error "Cannot convert non-positive or fractional Decimal to U256") ∧
    (v.den ≠ 1 →
      decimal_to_u256 v =
        .error "Cannot convert non-positive or fractional Decimal to U256") ∧
    (0 ≤ v → v.den = 1 → v.num.natAbs < 2 ^ 256 →
      decimal_to_u256 v = .ok v.num.natAbs ∧ ((v.num.natAbs : Nat) : ℚ) = v) := by
  refine ⟨fun h => ?_, fun h => ?_, fun h0 h1 h2 => ?_⟩
  · unfold decimal_to_u256
    rw [if_pos (Or.inl h)]
  · unfold decimal_to_u256
    rw [if_pos (Or.inr h)]
  · have hnum : (0 : ℤ) ≤ v.num := Rat.num_nonneg.mpr h0
    constructor
    · unfold decimal_to_u256
      rw [if_neg (by push_neg; exact ⟨h0, h1⟩), if_pos h2]
    · have hv : ((v.num : ℚ)) = v := by
        rw [← Rat.den_eq_one_iff]
        exact h1
      rw [Int.cast_natAbs, abs_of_nonneg hnum]
      exact hv


/-- C8 witness: the negative rejection and an exact conversion, from the
theorem at -100 and 5. -/
theorem C8_decimal_to_u256_rejects_witness :
    decimal_to_u256 (-100) =
        .error "Cannot convert non-positive or fractional Decimal to U256" ∧
      decimal_to_u256 (5 : ℚ) = .ok 5 := by
  constructor
  · exact (C8_decimal_to_u256_rejects (-100)).1 (by norm_num)
  · have h5 : (5 : ℚ).num = 5 := by norm_num
    have h := (C8_decimal_to_u256_rejects 5).2.2 (by norm_num) (by norm_num)
      (by rw [h5]; norm_num)
    rw [h5] at h
    exact h.1

/-- The nonce table from src/providers/nonce_manager.rs: a map from wallet
addresses (modelled as their 20-byte value) to the last-issued nonce.  The
`tokio::sync::Mutex` serialises all operations, so each is modelled as one
atomic pure step on the table. -/
def NonceTable : Type := Nat → Option Nat

/-- `NonceManager::get_next_nonce`: read the current nonce (default 0 for an
unseen wallet), add one (`u64` addition, hence the `% 2^64`), store and return
it — all under the single lock. -/
def get_next_nonce (nonces : NonceTable) (wallet : Nat) : Nat × NonceTable :=
  let current_nonce := (nonces wallet).getD 0
  let next_nonce := (current_nonce + 1) % 2 ^ 64
  (next_nonce, fun w => if w = wallet then some next_nonce else nonces w)

/-- N successive allocations for one wallet (the mutex linearises concurrent
callers into exactly such a sequence). -/
def allocRun (nonces : NonceTable) (wallet : Nat) : Nat → List Nat × NonceTable
  | 0 => ([], nonces)
  | n + 1 =>
    let step := get_next_nonce nonces wallet
    let rest := allocRun step.2 wallet n
    (step.1 :: rest.1, rest.2)

lemma allocRun_eq (wallet : Nat) : ∀ (n : Nat) (nonces : NonceTable) (last : Nat),
    (nonces wallet).getD 0 = last → last + n < 2 ^ 64 →
    (allocRun nonces wallet n).1 = List.range' (last + 1) n := by
  intro n
  induction n with
  | zero => intro nonces last _ _; rfl
  | succ n ih =>
    intro nonces last h hb
    have hmod : (last + 1) % 2 ^ 64 = last + 1 := Nat.mod_eq_of_lt (by omega)
    have hnext : (get_next_nonce nonces wallet).1 = last + 1 := by
      unfold get_next_nonce
      simp [h]
      omega
    have hstate : ((get_next_nonce nonces wallet).2 wallet).getD 0 = last + 1 := by
      unfold get_next_nonce
      simp [h]
      omega
    have htail := ih (get_next_nonce nonces wallet).2 (last + 1) hstate (by omega)
    show ((get_next_nonce nonces wallet).1 :: (allocRun (get_next_nonce nonces wallet).2 wallet n).1,
      (allocRun (get_next_nonce nonces wallet).2 wallet n).2).1 = List.range' (last + 1) (n + 1)
    rw [List.range'_succ]
    simp only [hnext, htail]

/-- C1: `get_next_nonce` returns current + 1 (current defaulting to 0 for an
unseen wallet) and stores that value, in one atomic step; consequently N
allocations for one wallet starting from last-issued nonce `last` yield
exactly the list `last+1, …, last+N` — no duplicates, no gaps (stated below
the `u64` bound; at `2^64` the `u64` counter itself would wrap). -/
theorem C1_nonce_allocation (nonces : NonceTable) (wallet : Nat) (last n : Nat)
    (hcur : (nonces wallet).getD 0 = last) (hbound : last + n < 2 ^ 64) :
    (get_next_nonce nonces wallet).1 = (last + 1) % 2 ^ 64 ∧
    (get_next_nonce nonces wallet).2 wallet = some ((last + 1) % 2 ^ 64) ∧
    (allocRun nonces wallet n).1 = List.range' (last + 1) n ∧
    (allocRun nonces wallet n).1.Nodup := by
  refine ⟨?_, ?_, allocRun_eq wallet n nonces last hcur hbound, ?_⟩
  · unfold get_next_nonce
    simp [hcur]
  · unfold get_next_nonce
    simp [hcur]
  · rw [allocRun_eq wallet n nonces last hcur hbound]
    apply List.nodup_range'
    norm_num

/-- C1 witness: three allocations on a fresh wallet yield 1, 2, 3. -/
theorem C1_nonce_allocation_witness :
    (allocRun (fun _ => none) 7 3).1 = [1, 2, 3] := by
  have h := C1_nonce_allocation (fun _ => none) 7 0 3 (by simp) (by norm_num)
  rw [h.2.2.1]
  rfl

/-- Circuit breaker states from src/providers/circuit_breaker.rs (`Open` is a
Lean keyword, hence `opened`). -/
inductive CircuitState where
  | closed
  | opened
  | halfOpen
deriving DecidableEq

/-- `CircuitBreakerConfig`: thresholds and the open-state timeout in seconds
(the source compares `Duration::as_secs()` values). -/
structure CircuitBreakerConfig where
  failure_threshold : Nat
  timeout_secs : Nat
  success_threshold : Nat
deriving DecidableEq

/-- The circuit breaker's mutable state: current state, both counters and the
last-failure timestamp in seconds since the epoch. -/
structure CircuitBreaker where
  state : CircuitState
  failure_count : Nat
  success_count : Nat
  last_failure_time : Nat
deriving DecidableEq

/-- `CircuitBreaker::with_config` starts Closed with zeroed counters. -/
def CircuitBreaker.init : CircuitBreaker := ⟨.closed, 0, 0, 0⟩

/-- `CircuitBreaker::open_circuit`: set Open, reset the success counter. -/
def open_circuit (cb : CircuitBreaker) : CircuitBreaker :=
  { cb with state := .opened, success_count := 0 }

/-- `CircuitBreaker::close_circuit`: set Closed, reset both counters. -/
def close_circuit (cb : CircuitBreaker) : CircuitBreaker :=
  { cb with state := .closed, failure_count := 0, success_count := 0 }

/-- `CircuitBreaker::half_open_circuit`: set HalfOpen, reset the success
counter. -/
def half_open_circuit (cb : CircuitBreaker) : CircuitBreaker :=
  { cb with state := .halfOpen, success_count := 0 }

/-- `CircuitBreaker::on_success`. -/
def on_success (cfg : CircuitBreakerConfig) (cb : CircuitBreaker) : CircuitBreaker :=
  match cb.state with
  | .halfOpen =>
    let success_count := cb.success_count + 1
    let cb' := { cb with success_count := success_count }
    if success_count ≥ cfg.success_threshold then close_circuit cb' else cb'
  | .closed => { cb with failure_count := 0 }
  | .opened => { cb with failure_count := 0, success_count := 0 }

/-- `CircuitBreaker::on_failure`: increment the failure counter and stamp the
failure time before inspecting the state. -/
def on_failure (cfg : CircuitBreakerConfig) (cb : CircuitBreaker) (now : Nat) : CircuitBreaker :=
  let failure_count := cb.failure_count + 1
  let cb' := { cb with failure_count := failure_count, last_failure_time := now }
  match cb'.state with
  | .closed => if failure_count ≥ cfg.failure_threshold then open_circuit cb' else cb'
  | .halfOpen => open_circuit cb'
  | .opened => cb'

/-- `CircuitBreaker::update_state`: an Open breaker moves to HalfOpen once the
elapsed time since the last failure reaches the timeout.  (`now -
last_failure` is `u64` subtraction; `Nat` truncated subtraction matches it on
the monotone-clock case `last_failure ≤ now` used below.) -/
def update_state (cfg : CircuitBreakerConfig) (cb : CircuitBreaker) (now : Nat) : CircuitBreaker :=
  if cb.state = .opened ∧ now - cb.last_failure_time ≥ cfg.timeout_secs then
    half_open_circuit cb
  else cb

/-- `CircuitBreakerError`. -/
inductive CircuitBreakerError (ε : Type) where
  | circuitOpen
  | operationFailed (e : ε)
deriving DecidableEq

/-- `CircuitBreaker::call`: refresh the state, fail fast when Open, otherwise
run the wrapped operation (whose outcome is the `op` argument) and record its
result.  The returned `Bool` tells whether the wrapped operation was invoked. -/
def CircuitBreaker.call {ε α : Type} (cfg : CircuitBreakerConfig) (cb : CircuitBreaker)
    (now : Nat) (op : Except ε α) :
    Bool × Except (CircuitBreakerError ε) α × CircuitBreaker :=
  let cb1 := update_state cfg cb now
  match cb1.state with
  | .opened => (false, .error .circuitOpen, cb1)
  | _ =>
    match op with
    | .ok v => (true, .ok v, on_success cfg cb1)
    | .error e => (true, .error (.operationFailed e), on_failure cfg cb1 now)

/-- C2: the circuit breaker implements the three-state machine: it starts
Closed with zeroed counters; in Closed each failure increments the failure
counter, opening the circuit when it reaches `failure_threshold`; while Open a
call returns CircuitOpen without invoking the wrapped operation, unless the
elapsed time since the last failure reaches `timeout_duration`, in which case
the breaker first moves to HalfOpen with the success counter reset and the
call passes through; in HalfOpen each success increments the success counter,
reaching `success_threshold` closes the circuit resetting both counters, and
any single failure reopens it; a success while Closed resets the failure
counter. -/
theorem C2_circuit_breaker_state_machine (cfg : CircuitBreakerConfig) (cb : CircuitBreaker)
    (now : Nat) {ε α : Type} (op : Except ε α) :
    (CircuitBreaker.init = ⟨.closed, 0, 0, 0⟩) ∧
    (cb.state = .closed → cb.failure_count + 1 < cfg.failure_threshold →
      on_failure cfg cb now = ⟨.closed, cb.failure_count + 1, cb.success_count, now⟩) ∧
    (cb.state = .closed → cb.failure_count + 1 ≥ cfg.failure_threshold →
      on_failure cfg cb now = ⟨.opened, cb.failure_count + 1, 0, now⟩) ∧
    (cb.state = .opened → cb.last_failure_time ≤ now →
      now - cb.last_failure_time < cfg.timeout_secs →
      CircuitBreaker.call cfg cb now op = (false, .error .circuitOpen, cb)) ∧
    (cb.state = .opened → now - cb.last_failure_time ≥ cfg.timeout_secs →
      update_state cfg cb now = half_open_circuit cb ∧
        (half_open_circuit cb).state = .halfOpen ∧
        (half_open_circuit cb).success_count = 0 ∧
        (CircuitBreaker.call cfg cb now op).1 = true) ∧
    (cb.state = .halfOpen → cb.success_count + 1 < cfg.success_threshold →
      on_success cfg cb = { cb with success_count := cb.success_count + 1 }) ∧
    (cb.state = .halfOpen → cb.success_count + 1 ≥ cfg.success_threshold →
      on_success cfg cb = ⟨.closed, 0, 0, cb.last_failure_time⟩) ∧
    (cb.state = .halfOpen → (on_failure cfg cb now).state = .opened) ∧
    (cb.state = .closed → on_success cfg cb = { cb with failure_count := 0 }) := by
  obtain ⟨st, fc, sc, lt⟩ := cb
  refine ⟨rfl, ?_, ?_, ?_, ?_, ?_, ?_, ?_, ?_⟩ <;> intro h1
  · intro h2
    subst h1
    unfold on_failure
    simp only []
    rw [if_neg (by dsimp only at h2 ⊢; omega)]
  · intro h2
    subst h1
    unfold on_failure open_circuit
    simp only []
    rw [if_pos h2]
  · intro h2 h3
    subst h1
    unfold CircuitBreaker.call update_state
    simp only []
    rw [if_neg (by rintro ⟨-, hq⟩; dsimp only at hq h3; omega)]
  · intro h2
    subst h1
    have hup : update_state cfg ⟨.opened, fc, sc, lt⟩ now =
        half_open_circuit ⟨.opened, fc, sc, lt⟩ := by
      unfold update_state
      rw [if_pos ⟨rfl, h2⟩]
    refine ⟨hup, rfl, rfl, ?_⟩
    unfold CircuitBreaker.call
    rw [hup]
    unfold half_open_circuit
    cases op <;> rfl
  · intro h2
    subst h1
    unfold on_success
    simp only []
    rw [if_neg (by dsimp only at h2 ⊢; omega)]
  · intro h2
    subst h1
    unfold on_success close_circuit
    simp only []
    rw [if_pos h2]
  · subst h1
    unfold on_failure open_circuit
    rfl
  · subst h1
    unfold on_success
    simp only []

/-- C2 witness: with failure_threshold 2, a second failure opens the circuit
and the next call is rejected without invoking the operation. -/
theorem C2_circuit_breaker_state_machine_witness :
    on_failure ⟨2, 30, 1⟩ ⟨.closed, 1, 0, 0⟩ 5 = ⟨.opened, 2, 0, 5⟩ ∧
      CircuitBreaker.call ⟨2, 30, 1⟩ ⟨.opened, 2, 0, 5⟩ 6 (.error "e" : Except String Nat) =
        (false, .error .circuitOpen, ⟨.opened, 2, 0, 5⟩) := by
  refine ⟨?_, ?_⟩
  · exact (C2_circuit_breaker_state_machine ⟨2, 30, 1⟩ ⟨.closed, 1, 0, 0⟩ 5
      (.error "e" : Except String Nat)).2.2.1 rfl (by norm_num)
  · exact (C2_circuit_breaker_state_machine ⟨2, 30, 1⟩ ⟨.opened, 2, 0, 5⟩ 6
      (.error "e" : Except String Nat)).2.2.2.1 rfl (by norm_num) (by norm_num)

/-- Outcome of one attempt inside `retry_with_backoff` as observed through the
30-second `tokio::time::timeout` wrapper: the operation finished Ok, finished
Err, or exceeded the per-attempt timeout. -/
inductive AttemptOutcome (ε α : Type) where
  | ok (v : α)
  | fail (e : ε)
  | timeout
deriving DecidableEq

/-- The result of `retry_with_backoff`: success, the aggregate
"{name} failed after {n} attempts: {e}" error, or the
"Operation '{name}' timed out" error. -/
inductive RetryResult (ε α : Type) where
  | ok (v : α)
  | exhausted (opName : String) (attempts : Nat) (last : ε)
  | timedOut (opName : String)
deriving DecidableEq

/-- Observable trace of one `retry_with_backoff` run: its result, the backoff
delays slept (in milliseconds, in order), and how many times the wrapped
operation was invoked. -/
structure RetryTrace (ε α : Type) where
  result : RetryResult ε α
  delays : List Nat
  invocations : Nat
deriving DecidableEq

/-- The loop body of `retry_with_backoff` from src/providers/ethereum.rs.
`op k` is the outcome of the attempt made with `attempts = k` failures so far;
`fuel` bounds the recursion and is unreachable-by-construction at 0 for the
initial value `maxRetries + 1` (the loop makes at most `max maxRetries 1`
iterations). -/
def retryAux {ε α : Type} (op : Nat → AttemptOutcome ε α) (name : String)
    (maxRetries : Nat) : Nat → Nat → RetryTrace ε α
  | _, 0 => ⟨.timedOut name, [], 0⟩
  | attempts, fuel + 1 =>
    match op attempts with
    | .ok v => ⟨.ok v, [], 1⟩
    | .timeout => ⟨.timedOut name, [], 1⟩
    | .fail e =>
      if attempts + 1 ≥ maxRetries then ⟨.exhausted name (attempts + 1) e, [], 1⟩
      else
        let t := retryAux op name maxRetries (attempts + 1) fuel
        ⟨t.result, 100 * 2 ^ attempts :: t.delays, t.invocations + 1⟩

/-- `retry_with_backoff(operation, max_retries, operation_name)`: run the loop
starting from `attempts = 0`. -/
def retry_with_backoff {ε α : Type} (op : Nat → AttemptOutcome ε α) (maxRetries : Nat)
    (name : String) : RetryTrace ε α :=
  retryAux op name maxRetries 0 (maxRetries + 1)

/-- C3 counterexample: with attempt 1 failing with an ordinary error and
attempt 2 timing out (budget of 3 attempts), the executor stops right after
the timed-out second attempt — only 2 invocations, result the
timeout-specific error — whereas the claim says a non-first timed-out attempt
is retried like any ordinary failure. -/
theorem C3_counterexample :
    retry_with_backoff
        (fun k => if k = 0 then .fail "boom" else .timeout : Nat → AttemptOutcome String Nat)
        3 "quote" = ⟨.timedOut "quote", [100], 2⟩ ∧
      (⟨.timedOut "quote", [100], 2⟩ : RetryTrace String Nat).invocations = 2 := by
  constructor
  · rfl
  · rfl

lemma retryAux_ok {ε α : Type} (op : Nat → AttemptOutcome ε α) (name : String)
    (maxRetries attempts fuel : Nat) (v : α) (h : op attempts = .ok v) :
    retryAux op name maxRetries attempts (fuel + 1) = ⟨.ok v, [], 1⟩ := by
  simp only [retryAux, h]

lemma retryAux_timedOut {ε α : Type} (op : Nat → AttemptOutcome ε α) (name : String)
    (maxRetries attempts fuel : Nat) (h : op attempts = .timeout) :
    retryAux op name maxRetries attempts (fuel + 1) = ⟨.timedOut name, [], 1⟩ := by
  simp only [retryAux, h]

lemma retryAux_exhaust {ε α : Type} (op : Nat → AttemptOutcome ε α) (name : String)
    (maxRetries attempts fuel : Nat) (e : ε) (h : op attempts = .fail e)
    (hge : attempts + 1 ≥ maxRetries) :
    retryAux op name maxRetries attempts (fuel + 1) =
      ⟨.exhausted name (attempts + 1) e, [], 1⟩ := by
  simp only [retryAux, h]
  rw [if_pos hge]

lemma retryAux_step {ε α : Type} (op : Nat → AttemptOutcome ε α) (name : String)
    (maxRetries attempts fuel : Nat) (e : ε) (h : op attempts = .fail e)
    (hlt : attempts + 1 < maxRetries) :
    retryAux op name maxRetries attempts (fuel + 1) =
      ⟨(retryAux op name maxRetries (attempts + 1) fuel).result,
        100 * 2 ^ attempts :: (retryAux op name maxRetries (attempts + 1) fuel).delays,
        (retryAux op name maxRetries (attempts + 1) fuel).invocations + 1⟩ := by
  simp only [retryAux, h]
  rw [if_neg (by omega)]

lemma retryAux_all_fail {ε α : Type} (op : Nat → AttemptOutcome ε α) (name : String)
    (maxRetries : Nat) (e : Nat → ε) :
    ∀ (fuel attempts : Nat), attempts < maxRetries → maxRetries ≤ attempts + fuel →
    (∀ k, attempts ≤ k → k < maxRetries → op k = .fail (e k)) →
    retryAux op name maxRetries attempts fuel =
      ⟨.exhausted name maxRetries (e (maxRetries - 1)),
        (List.range' attempts (maxRetries - 1 - attempts)).map (fun k => 100 * 2 ^ k),
        maxRetries - attempts⟩ := by
  intro fuel
  induction fuel with
  | zero => intro attempts h1 h2 _; omega
  | succ fuel ih =>
    intro attempts h1 h2 hop
    have hf : op attempts = .fail (e attempts) := hop attempts le_rfl h1
    by_cases hend : attempts + 1 ≥ maxRetries
    · have ha : attempts = maxRetries - 1 := by omega
      rw [retryAux_exhaust op name maxRetries attempts fuel _ hf hend]
      have h3 : maxRetries - 1 - attempts = 0 := by omega
      have h4 : maxRetries - attempts = 1 := by omega
      rw [h3, h4, ← ha]
      simp [ha]
      omega
    · push_neg at hend
      rw [retryAux_step op name maxRetries attempts fuel _ hf hend,
        ih (attempts + 1) (by omega) (by omega)
          (fun k hk1 hk2 => hop k (by omega) hk2)]
      have h3 : maxRetries - 1 - attempts = (maxRetries - 1 - (attempts + 1)) + 1 := by omega
      have h4 : maxRetries - attempts = (maxRetries - (attempts + 1)) + 1 := by omega
      rw [h3, h4, List.range'_succ]
      simp

lemma retryAux_first_nonfail {ε α : Type} (op : Nat → AttemptOutcome ε α) (name : String)
    (maxRetries : Nat) (e : Nat → ε) :
    ∀ (j attempts fuel : Nat) (r : RetryResult ε α),
    attempts + j < maxRetries → maxRetries ≤ attempts + fuel →
    (∀ k, attempts ≤ k → k < attempts + j → op k = .fail (e k)) →
    ((∃ v, op (attempts + j) = .ok v ∧ r = .ok v) ∨
      (op (attempts + j) = .timeout ∧ r = .timedOut name)) →
    retryAux op name maxRetries attempts fuel =
      ⟨r, (List.range' attempts j).map (fun k => 100 * 2 ^ k), j + 1⟩ := by
  intro j
  induction j with
  | zero =>
    intro attempts fuel r h1 h2 _ hlast
    obtain ⟨fuel, rfl⟩ : ∃ f, fuel = f + 1 := by
      cases fuel
      · omega
      · exact ⟨_, rfl⟩
    rcases hlast with ⟨v, hv, rv⟩ | ⟨ht, rt⟩
    · rw [rv]
      simpa using retryAux_ok op name maxRetries attempts fuel v (by simpa using hv)
    · rw [rt]
      simpa using retryAux_timedOut op name maxRetries attempts fuel (by simpa using ht)
  | succ j ih =>
    intro attempts fuel r h1 h2 hop hlast
    obtain ⟨fuel, rfl⟩ : ∃ f, fuel = f + 1 := by
      cases fuel
      · omega
      · exact ⟨_, rfl⟩
    have hf : op attempts = .fail (e attempts) := hop attempts le_rfl (by omega)
    rw [retryAux_step op name maxRetries attempts fuel _ hf (by omega),
      ih (attempts + 1) fuel r (by omega) (by omega)
        (fun k hk1 hk2 => hop k (by omega) (by omega))
        (by rw [show attempts + 1 + j = attempts + (j + 1) by omega]; exact hlast)]
    rw [List.range'_succ]
    simp

/-- C3 (amended): `retry_with_backoff` executes attempts sequentially, each
bounded by the 30-second per-attempt timeout; an attempt failing with an
ordinary error is retried after a delay of `100ms * 2^(k-1)` before attempt
k+1, until `max_retries` attempts have failed, after which the aggregate error
naming the operation and the attempt count is returned; but ANY timed-out
attempt — first or later — fails the whole operation immediately with the
timeout-specific error and is never retried (the code does not single out the
first attempt, contrary to the claim). -/
theorem C3_retry_with_backoff_behaviour {ε α : Type} (op : Nat → AttemptOutcome ε α)
    (e : Nat → ε) (maxRetries : Nat) (name : String) :
    (1 ≤ maxRetries →
      (∀ k, k < maxRetries → op k = .fail (e k)) →
      retry_with_backoff op maxRetries name =
        ⟨.exhausted name maxRetries (e (maxRetries - 1)),
          (List.range (maxRetries - 1)).map (fun k => 100 * 2 ^ k), maxRetries⟩) ∧
    (∀ j v, j < maxRetries → (∀ k, k < j → op k = .fail (e k)) → op j = .ok v →
      retry_with_backoff op maxRetries name =
        ⟨.ok v, (List.range j).map (fun k => 100 * 2 ^ k), j + 1⟩) ∧
    (∀ j, j < maxRetries → (∀ k, k < j → op k = .fail (e k)) → op j = .timeout →
      retry_with_backoff op maxRetries name =
        ⟨.timedOut name, (List.range j).map (fun k => 100 * 2 ^ k), j + 1⟩) := by
  refine ⟨fun h1 hop => ?_, fun j v h1 hop hj => ?_, fun j h1 hop hj => ?_⟩
  · unfold retry_with_backoff
    rw [retryAux_all_fail op name maxRetries e (maxRetries + 1) 0 (by omega) (by omega)
      (fun k _ hk2 => hop k hk2)]
    simp [List.range_eq_range']
  · unfold retry_with_backoff
    rw [retryAux_first_nonfail op name maxRetries e j 0 (maxRetries + 1) (.ok v)
      (by omega) (by omega) (fun k _ hk2 => hop k (by omega))
      (Or.inl ⟨v, by simpa using hj, rfl⟩)]
    simp [List.range_eq_range']
  · unfold retry_with_backoff
    rw [retryAux_first_nonfail op name maxRetries e j 0 (maxRetries + 1) (.timedOut name)
      (by omega) (by omega) (fun k _ hk2 => hop k (by omega))
      (Or.inr ⟨by simpa using hj, rfl⟩)]
    simp [List.range_eq_range']

/-- C3 witness: two ordinary failures then a success — delays 100ms and 200ms,
three invocations. -/
theorem C3_retry_with_backoff_behaviour_witness :
    retry_with_backoff
        (fun k => if k < 2 then .fail "err" else .ok 42 : Nat → AttemptOutcome String Nat)
        3 "op" = ⟨.ok 42, [100, 200], 3⟩ := by
  have h := (C3_retry_with_backoff_behaviour
      (fun k => if k < 2 then .fail "err" else .ok 42 : Nat → AttemptOutcome String Nat)
      (fun _ => "err") 3 "op").2.1 2 42 (by norm_num)
      (fun k hk => by interval_cases k <;> rfl) (by rfl)
  rw [h]
  rfl

mutual
/-- Syntax of the orchestration pipeline in src/providers/ethereum.rs: the
sequence of effects an operation's body performs, with the circuit-breaker and
retry wrappers as explicit nesting (mutual with its own sequence type so that
structural recursion stays simple). -/
inductive ProvAction where
  | acquirePermit
  | externalCall (callee : String)
  | circuitWrap (body : ProvSeq)
  | retryWrap (body : ProvSeq)
inductive ProvSeq where
  | nil
  | cons (a : ProvAction) (rest : ProvSeq)
end

def ProvSeq.ofList : List ProvAction → ProvSeq
  | [] => .nil
  | a :: as => .cons a (ProvSeq.ofList as)

mutual
/-- Every external call is nested inside both a circuit wrapper and a retry
wrapper. -/
def actionCallsWrapped (inCircuit inRetry : Bool) : ProvAction → Bool
  | .acquirePermit => true
  | .externalCall _ => inCircuit && inRetry
  | .circuitWrap body => seqCallsWrapped true inRetry body
  | .retryWrap body => seqCallsWrapped inCircuit true body
def seqCallsWrapped (inCircuit inRetry : Bool) : ProvSeq → Bool
  | .nil => true
  | .cons a rest => actionCallsWrapped inCircuit inRetry a && seqCallsWrapped inCircuit inRetry rest
end

mutual
/-- Every external call is nested inside a circuit wrapper (retry or not). -/
def actionCallsInCircuit (inCircuit : Bool) : ProvAction → Bool
  | .acquirePermit => true
  | .externalCall _ => inCircuit
  | .circuitWrap body => seqCallsInCircuit true body
  | .retryWrap body => seqCallsInCircuit inCircuit body
def seqCallsInCircuit (inCircuit : Bool) : ProvSeq → Bool
  | .nil => true
  | .cons a rest => actionCallsInCircuit inCircuit a && seqCallsInCircuit inCircuit rest
end

mutual
/-- Whether any retry wrapper occurs at all. -/
def actionHasRetryWrap : ProvAction → Bool
  | .acquirePermit => false
  | .externalCall _ => false
  | .circuitWrap body => seqHasRetryWrap body
  | .retryWrap _ => true
def seqHasRetryWrap : ProvSeq → Bool
  | .nil => false
  | .cons a rest => actionHasRetryWrap a || seqHasRetryWrap rest
end

/-- The operation's very first effect is acquiring the admission permit. -/
def firstIsPermit : List ProvAction → Bool
  | .acquirePermit :: _ => true
  | _ => false

/-- The pipeline shape the claim asserts of every operation: permit first, and
every external call under circuit breaker AND retry. -/
def claimedPipeline (l : List ProvAction) : Bool :=
  firstIsPermit l && seqCallsWrapped false false (.ofList l)

def opCallsInCircuit (l : List ProvAction) : Bool :=
  seqCallsInCircuit false (.ofList l)

def opHasRetryWrap (l : List ProvAction) : Bool :=
  seqHasRetryWrap (.ofList l)

/-- `get_token_decimals` (ethereum.rs lines 233-243): permit, then the bare
decimals read through the circuit breaker.  Called as a nested full operation
by `get_token_price` and `simulate_swap`. -/
def get_token_decimals_ops : List ProvAction :=
  [.acquirePermit, .circuitWrap (.ofList [.externalCall "decimals"])]

/-- `get_eth_balance` (lines 172-196): permit → circuit → retry → balance
read. -/
def get_eth_balance_ops : List ProvAction :=
  [.acquirePermit,
    .circuitWrap (.ofList [.retryWrap (.ofList [.externalCall "eth_getBalance"])])]

/-- `get_erc20_balance` (lines 199-230): permit → circuit → retry →
balanceOf/decimals/symbol reads. -/
def get_erc20_balance_ops : List ProvAction :=
  [.acquirePermit,
    .circuitWrap (.ofList [.retryWrap (.ofList
      [.externalCall "balanceOf", .externalCall "decimals", .externalCall "symbol"])])]

/-- `get_gas_price` (lines 413-423): permit → circuit → gas-price read, no
retry layer. -/
def get_gas_price_ops : List ProvAction :=
  [.acquirePermit, .circuitWrap (.ofList [.externalCall "eth_gasPrice"])]

/-- `get_token_price` (lines 259-326): permit → circuit → price-feed reads,
nested `get_token_decimals`, quoter call — no retry layer. -/
def get_token_price_ops : List ProvAction :=
  [.acquirePermit,
    .circuitWrap (.ofList
      ([.externalCall "latestRoundData", .externalCall "feedDecimals"] ++
        get_token_decimals_ops ++ [.externalCall "quoteExactInputSingle"]))]

/-- `simulate_swap` (lines 329-410): permit, then nested `get_token_decimals`,
a BARE quoter call, another nested `get_token_decimals`, a bare gas estimate,
nested `get_gas_price`, and a bare router simulation call — the quoter,
gas-estimate and router calls run outside any circuit breaker and outside any
retry. -/
def simulate_swap_ops : List ProvAction :=
  [.acquirePermit] ++ get_token_decimals_ops ++ [.externalCall "quoteExactInputSingle"]
    ++ get_token_decimals_ops ++ [.externalCall "estimateGas"]
    ++ get_gas_price_ops ++ [.externalCall "exactInputSingle"]

/-- `get_transaction_status` (lines 426-461): permit → circuit →
receipt/block-number reads, no retry layer. -/
def get_transaction_status_ops : List ProvAction :=
  [.acquirePermit,
    .circuitWrap (.ofList
      [.externalCall "getTransactionReceipt", .externalCall "getBlockNumber"])]

/-- C4 counterexample: the claimed permit→circuit→retry→call pipeline fails on
the code — `simulate_swap` performs external calls outside the circuit breaker
entirely, and `get_gas_price` (like `get_token_price` and
`get_transaction_status`) has no retry layer inside its circuit wrapper. -/
theorem C4_counterexample :
    claimedPipeline simulate_swap_ops = false ∧
      opCallsInCircuit simulate_swap_ops = false ∧
      claimedPipeline get_gas_price_ops = false := by
  exact ⟨rfl, rfl, rfl⟩

/-- C4 (amended): every one of the six operations first acquires an admission
permit; `get_eth_balance` and `get_erc20_balance` follow the full
permit → circuit-breaker → retry → external-call pipeline; `get_token_price`,
`get_gas_price` and `get_transaction_status` run permit → circuit-breaker →
external-call with no retry layer; `simulate_swap` acquires a permit but
performs its quoter, gas-estimate and router calls outside any circuit breaker
(only its nested decimals/gas-price sub-operations are circuit-protected), so
the no-call-while-Open guarantee holds only for the circuit-wrapped calls. -/
theorem C4_pipeline_structure :
    (firstIsPermit get_eth_balance_ops = true ∧
      firstIsPermit get_erc20_balance_ops = true ∧
      firstIsPermit get_token_price_ops = true ∧
      firstIsPermit simulate_swap_ops = true ∧
      firstIsPermit get_gas_price_ops = true ∧
      firstIsPermit get_transaction_status_ops = true) ∧
    (claimedPipeline get_eth_balance_ops = true ∧
      claimedPipeline get_erc20_balance_ops = true) ∧
    (opCallsInCircuit get_token_price_ops = true ∧
      opHasRetryWrap get_token_price_ops = false ∧
      opCallsInCircuit get_gas_price_ops = true ∧
      opHasRetryWrap get_gas_price_ops = false ∧
      opCallsInCircuit get_transaction_status_ops = true ∧
      opHasRetryWrap get_transaction_status_ops = false) ∧
    opCallsInCircuit simulate_swap_ops = false := by
  exact ⟨⟨rfl, rfl, rfl, rfl, rfl, rfl⟩, ⟨rfl, rfl⟩, ⟨rfl, rfl, rfl, rfl, rfl, rfl⟩, rfl⟩

/-- `TransactionStatus` from src/types/mod.rs — note the `NotFound` variant
exists in the public type. -/
inductive TransactionStatus where
  | pending
  | confirmed
  | failed
  | notFound
deriving DecidableEq

/-- `TransactionStatusInfo` from src/types/mod.rs. -/
structure TransactionStatusInfo where
  transaction_hash : String
  status : TransactionStatus
  confirmations : Nat
  block_number : Option Nat
deriving DecidableEq

/-- The part of a transaction receipt that `get_transaction_status` reads: the
(possibly absent) block number and the success flag (`receipt.status()`). -/
structure Receipt where
  block_number : Option Nat
  status : Bool
deriving DecidableEq

/-- The confirmation count computed in ethereum.rs line 435-437:
`receipt.block_number.map_or(0, |b| latest_block.saturating_sub(b) + 1)` —
`Nat` subtraction is exactly `u64::saturating_sub`. -/
def confirmations_of (latest_block : Nat) (block_number : Option Nat) : Nat :=
  match block_number with
  | none => 0
  | some b => latest_block - b + 1

/-- `get_transaction_status` (ethereum.rs lines 426-461) as a function of the
fetched receipt and latest block number. -/
def get_transaction_status (tx_hash : String) (receipt : Option Receipt)
    (latest_block : Nat) : TransactionStatusInfo :=
  match receipt with
  | some r =>
    { transaction_hash := tx_hash
      status := if r.status then .confirmed else .failed
      confirmations := confirmations_of latest_block r.block_number
      block_number := r.block_number }
  | none =>
    { transaction_hash := tx_hash
      status := .pending
      confirmations := 0
      block_number := none }

/-- C5 counterexample: with `latest_block = 100` and a receipt at block 150,
the code reports 1 confirmation (`saturating_sub` gives 0, then `+ 1`), not
the 0 the claim asserts. -/
theorem C5_counterexample :
    (get_transaction_status "0xdead" (some ⟨some 150, true⟩) 100).confirmations = 1 ∧
      (1 : Nat) ≠ 0 := by
  exact ⟨rfl, by norm_num⟩

/-- C5 (amended): for a receipt at block b, confirmations are computed as
`latest_block.saturating_sub(b) + 1`; when `latest_block < b` (as across a
reorg) this yields 1 — not 0, but also never a wrapped large value: the result
is always at most `latest_block + 1`. -/
theorem C5_confirmations_saturating (tx_hash : String) (latest b : Nat) (r : Receipt)
    (hb : r.block_number = some b) :
    (get_transaction_status tx_hash (some r) latest).confirmations = latest - b + 1 ∧
    (latest < b → (get_transaction_status tx_hash (some r) latest).confirmations = 1) ∧
    (get_transaction_status tx_hash (some r) latest).confirmations ≤ latest + 1 := by
  have h : (get_transaction_status tx_hash (some r) latest).confirmations = latest - b + 1 := by
    simp [get_transaction_status, confirmations_of, hb]
  refine ⟨h, fun hlt => ?_, ?_⟩
  · rw [h]
    omega
  · rw [h]
    omega

/-- C5 witness: the claim's own scenario latest=100, receipt block=150 gives
confirmations 1 (and stays bounded). -/
theorem C5_confirmations_saturating_witness :
    (get_transaction_status "0xdead" (some ⟨some 150, false⟩) 100).confirmations = 1 := by
  exact (C5_confirmations_saturating "0xdead" 100 150 ⟨some 150, false⟩ rfl).2.1 (by norm_num)

/-- C10: `get_transaction_status` never returns `NotFound` even though the
type has that variant: no receipt maps to Pending with 0 confirmations and no
block number; a receipt maps to Confirmed when its success flag is set and to
Failed otherwise. -/
theorem C10_transaction_status_mapping (tx_hash : String) (receipt : Option Receipt)
    (latest : Nat) :
    (get_transaction_status tx_hash receipt latest).status ≠ .notFound ∧
    (receipt = none →
      get_transaction_status tx_hash receipt latest = ⟨tx_hash, .pending, 0, none⟩) ∧
    (∀ r, receipt = some r →
      (get_transaction_status tx_hash receipt latest).status =
        (if r.status then .confirmed else .failed)) := by
  refine ⟨?_, fun h => by rw [h]; rfl, fun r h => by rw [h]; rfl⟩
  cases receipt with
  | none => simp [get_transaction_status]
  | some r =>
    cases hs : r.status <;> simp [get_transaction_status, hs]

/-- C10 witness: a missing receipt reports Pending, and a failed receipt
reports Failed, from the theorem at concrete inputs. -/
theorem C10_transaction_status_mapping_witness :
    get_transaction_status "0x1" none 5 = ⟨"0x1", .pending, 0, none⟩ ∧
      (get_transaction_status "0x2" (some ⟨some 3, false⟩) 5).status = .failed := by
  constructor
  · exact (C10_transaction_status_mapping "0x1" none 5).2.1 rfl
  · have h := (C10_transaction_status_mapping "0x2" (some ⟨some 3, false⟩) 5).2.2
      ⟨some 3, false⟩ rfl
    simpa using h

/-- `TokenPrice` from src/types/mod.rs (addresses modelled as their 20-byte
value). -/
structure TokenPrice where
  token_address : Nat
  price_eth : ℚ
  price_usd : Option ℚ
  source : String
deriving DecidableEq

/-- `get_token_price` (ethereum.rs lines 259-326) as a function of the token
and wrapped-native addresses, the optional ETH/USD feed price (the source
takes `fetch_eth_usd_price(..).ok()`), the selected fee tier and the quoter
call's outcome.  The nested `get_token_decimals` fetch (whose failure would
propagate as an error before the quoter is consulted) is elided as it is
outside every claim. -/
def get_token_price (token weth : Nat) (eth_usd_price : Option ℚ) (fee_tier : Nat)
    (quote : Except String Nat) : Except String TokenPrice :=
  if token = weth then
    .ok ⟨token, 1, eth_usd_price, "direct_weth"⟩
  else
    match quote with
    | .ok amountOut =>
      match u256_to_decimal amountOut with
      | .ok weth_amount =>
        let price_eth := weth_amount / ((10 : ℚ) ^ 18)
        .ok ⟨token, price_eth, eth_usd_price.map (fun p => price_eth * p),
          "uniswap_v3_fee_" ++ toString fee_tier⟩
      | .error e => .error e
    | .error _ => .ok ⟨token, 0, none, "fallback_unavailable"⟩

/-- C9: the two-tier price policy — the wrapped-native token itself prices at
`price_eth = 1` with USD taken from the independent feed; any other token is
priced from the quoter, and a quoter failure degrades to a zero-price result
(`price_eth = 0`, no USD price, "unavailable" source) instead of raising an
error. -/
theorem C9_token_price_two_tier (token weth : Nat) (eth_usd : Option ℚ) (fee : Nat)
    (quote : Except String Nat) :
    (token = weth →
      get_token_price token weth eth_usd fee quote =
        .ok ⟨token, 1, eth_usd, "direct_weth"⟩) ∧
    (token ≠ weth → ∀ e, quote = .error e →
      get_token_price token weth eth_usd fee quote =
        .ok ⟨token, 0, none, "fallback_unavailable"⟩) := by
  constructor
  · intro h
    simp [get_token_price, h]
  · intro h e hq
    simp [get_token_price, h, hq]

/-- C9 witness: WETH prices at 1 with the feed's USD value; a failing quoter
yields the zero-price unavailable result. -/
theorem C9_token_price_two_tier_witness :
    get_token_price 1 1 (some 2000) 3000 (.error "revert") =
        .ok ⟨1, 1, some 2000, "direct_weth"⟩ ∧
      get_token_price 2 1 (some 2000) 3000 (.error "revert") =
        .ok ⟨2, 0, none, "fallback_unavailable"⟩ := by
  constructor
  · exact (C9_token_price_two_tier 1 1 (some 2000) 3000 (.error "revert")).1 rfl
  · exact (C9_token_price_two_tier 2 1 (some 2000) 3000 (.error "revert")).2
      (by norm_num) "revert" rfl
